import Mathlib

/-!
Shallow embedding of the `scroll_strategist` scrolling-strategy engine.

The Rust sources embedded here are `src/stats.rs` (stat vectors), `src/graph.rs`
(`ItemState` / `ScrollUse` strategy-tree nodes), `src/dfs.rs` (`solve_p` /
`dfs_p`, the DFS expectation evaluator with its memoization cache and
master-scroll pruning heuristic), and `src/main.rs` (a standalone copy of the
same program; its `Scroll::master_scroll` is the implementation of the
master-scroll constructor).  `f64` arithmetic is modelled as exact rational
(`ℚ`) arithmetic; `u16` stat components are `Nat` with explicit wrapping
`% 65536` where the Rust release build would wrap.
-/

/-- Stat vectors (`Stats` in `src/stats.rs`): an ordered array of `u16` stats,
modelled as a list of naturals. -/
abbrev Stats := List Nat

/-- Comparison of two `u16` values (`Ord::cmp` on unsigned integers), as used
by `Stats::partial_cmp` in `src/stats.rs`. -/
def natCmp (a b : Nat) : Ordering :=
  if a < b then Ordering.lt else if a = b then Ordering.eq else Ordering.gt

/-- Componentwise sum (`Stats::plus` in `src/stats.rs`).  The Rust iterator
`zip` truncates to the shorter side; each component addition is unchecked `u16`
addition, which wraps modulo `2^16` in release builds. -/
def Stats.plus (s t : Stats) : Stats :=
  (s.zip t).map (fun p => (p.1 + p.2) % 65536)

/-- Componentwise scalar product (`impl Mul<u16> for Stats` in
`src/stats.rs`): each component is multiplied by `k` with unchecked `u16`
multiplication, which wraps modulo `2^16` in release builds. -/
def Stats.mulScalar (s : Stats) (k : Nat) : Stats :=
  s.map (fun a => a * k % 65536)

/-- Loop body of `Stats::partial_cmp` (`src/stats.rs` lines 106-134): a fold
over the zipped components carrying the current partial ordering; an early
`return None` is modelled by answering `none` without consuming the rest. -/
def pcLoop : Option Ordering → List (Nat × Nat) → Option Ordering
  | po, [] => po
  | po, p :: rest =>
    match po, natCmp p.1 p.2 with
    | none, ord => pcLoop (some ord) rest
    | some Ordering.lt, ord =>
      if ord = Ordering.gt then none else pcLoop (some Ordering.lt) rest
    | some Ordering.eq, ord =>
      if ord ≠ Ordering.eq then pcLoop (some ord) rest
      else pcLoop (some Ordering.eq) rest
    | some Ordering.gt, ord =>
      if ord = Ordering.lt then none else pcLoop (some Ordering.gt) rest

/-- Product-order comparison (`Stats::partial_cmp` in `src/stats.rs`): `none`
when the lengths differ, otherwise the scan of the zipped components. -/
def Stats.partialCmp (s t : Stats) : Option Ordering :=
  if s.length ≠ t.length then none else pcLoop none (s.zip t)

/-- Strict `<` on stat vectors, as derived by Rust's `PartialOrd` from
`partial_cmp` (`matches!(partial_cmp, Some(Less))`); this is the comparison
`&bound < goal` used by the pruning checks in `src/dfs.rs`. -/
def Stats.ltb (s t : Stats) : Bool :=
  match Stats.partialCmp s t with
  | some Ordering.lt => true
  | _ => false

/-- Non-strict `>=` on stat vectors, as derived by Rust's `PartialOrd` from
`partial_cmp`; this is the comparison `&*stats >= goal` used by the
`slots == 0` terminal case in `src/dfs.rs`. -/
def Stats.geb (s t : Stats) : Bool :=
  match Stats.partialCmp s t with
  | some Ordering.gt => true
  | some Ordering.eq => true
  | _ => false

/-- Componentwise maximum, mutating the left argument
(`Stats::max_in_place` in `src/main.rs` lines 210-220, the zero-padded
variant used by `Scroll::master_scroll`): the left vector is first extended
with zeros to the length of the right one, then each component present in the
right vector is raised to the maximum of the two. -/
def Stats.maxInPlace (s t : Stats) : Stats :=
  let s2 := s ++ List.replicate (t.length - s.length) 0
  s2.enum.map (fun p => if p.1 < t.length then max p.2 (t.getD p.1 0) else p.2)

/-- Scroll record (`Scroll` in `src/main.rs` lines 116-125; the library's
`src/scroll.rs` declares the same four fields, as witnessed by
`Scroll::new(p_suc, dark, cost, stats)` calls in `src/lib.rs`): success
probability, dark flag, nominal cost, stat bonus on success. -/
structure Scroll where
  p_suc : ℚ
  dark : Bool
  cost : ℚ
  stats : Stats
deriving DecidableEq, Repr

/-- Synthetic master scroll (`Scroll::master_scroll` in `src/main.rs` lines
152-161; the library's copy lives in the absent `src/scroll.rs` and is
modelled from the spec and from this in-repo implementation): probability 1,
not dark, cost `f64::INFINITY` (recorded as a flag, since the evaluator never
reads the master scroll's cost), and stats the componentwise maximum of all
input scrolls' stats, folded with `max_in_place` from an empty default. -/
structure MasterScroll where
  p_suc : ℚ
  dark : Bool
  costIsInfinite : Bool
  stats : Stats
deriving DecidableEq, Repr

/-- Constructor of the master scroll (`Scroll::master_scroll` in
`src/main.rs` lines 152-161). -/
def Scroll.masterScroll (scrolls : List Scroll) : MasterScroll :=
  { p_suc := 1
    dark := false
    costIsInfinite := true
    stats := scrolls.foldl (fun acc sc => Stats.maxInPlace acc sc.stats) [] }

mutual
/-- Item state (`ItemState` in `src/graph.rs`): either an existing item with
remaining slots, current stats and an optional optimal child, or a boomed
item. -/
inductive ItemState : Type where
  | Exists (slots : Nat) (stats : Stats) (child : Option ScrollUse)
  | Boomed

/-- Scroll-use node (`ScrollUse` in `src/graph.rs`): the scroll being used,
the probability of reaching the goal given this scroll is chosen, the expected
cost from this point onward, and the enumerated outcome states. -/
inductive ScrollUse : Type where
  | mk (scroll : Scroll) (p_goal : ℚ) (exp_cost : ℚ) (outcomes : List ItemState)
end

/-- Projection of the scroll being used (`ScrollUse::scroll`). -/
def ScrollUse.scroll : ScrollUse → Scroll
  | .mk s _ _ _ => s

/-- Projection of the goal probability (`ScrollUse::p_goal`). -/
def ScrollUse.p_goal : ScrollUse → ℚ
  | .mk _ p _ _ => p

/-- Projection of the expected cost (`ScrollUse::exp_cost`). -/
def ScrollUse.exp_cost : ScrollUse → ℚ
  | .mk _ _ e _ => e

/-- Projection of the outcome list (`ScrollUse::outcomes`). -/
def ScrollUse.outcomes : ScrollUse → List ItemState
  | .mk _ _ _ o => o

/-- Child of an item state (`None` for `Boomed`). -/
def ItemState.child : ItemState → Option ScrollUse
  | .Exists _ _ c => c
  | .Boomed => none

/-- Scroll of the optimal child of a state, when set. -/
def childScroll (st : ItemState) : Option Scroll :=
  (ItemState.child st).map ScrollUse.scroll

/-- Goal probability of the optimal child of a state, when set. -/
def childPGoal (st : ItemState) : Option ℚ :=
  (ItemState.child st).map ScrollUse.p_goal

/-- Expected cost of the optimal child of a state, when set. -/
def childExpCost (st : ItemState) : Option ℚ :=
  (ItemState.child st).map ScrollUse.exp_cost

/-- Outcome list of the optimal child of a state, when set. -/
def childOutcomes (st : ItemState) : Option (List ItemState) :=
  (ItemState.child st).map ScrollUse.outcomes

/-- Memoization cache (`FxHashMap<CacheKey, Rc<ScrollUse>>` in `src/dfs.rs`),
modelled as an association list from `(slots, stats)` keys to the cached
optimal `ScrollUse`. -/
abbrev Cache := List ((Nat × Stats) × ScrollUse)

/-- Cache probe (`cache.get(&CacheKey::new_borrowed(*slots, stats))`). -/
def cacheGet (c : Cache) (slots : Nat) (stats : Stats) : Option ScrollUse :=
  (c.find? (fun e => e.1.1 == slots && e.1.2 == stats)).map (fun e => e.2)

/-- Cache insertion (`cache.insert(CacheKey::new_owned(*slots, stats.clone()),
…)`); `dfs_p` only ever inserts a key it has just probed and missed, so a
prepend is an accurate model of the hash-map insert. -/
def cacheInsert (c : Cache) (slots : Nat) (stats : Stats) (su : ScrollUse) :
    Cache :=
  ((slots, stats), su) :: c

/-- Tail of the per-scroll loop body in `dfs_p` (`src/dfs.rs` lines 119-180,
after the success branch): the failure-branch admissibility check (whose
`continue` — answering `none` here — skips the rest of the scroll), then the
failure branch when `p_suc < 1`, then the boom outcome for dark scrolls (the
recursive call on `Boomed` always yields `(0, 0)` and its results are
ignored), finally yielding the completed `ScrollUse` candidate.  `recur` is
the recursive evaluator for an existing item with `slots_m1` slots, returning
the evaluated child, `p_goal`, `exp_cost` and the updated cache. -/
def scrollStepRest
    (recur : Stats → Cache → Option ScrollUse × ℚ × ℚ × Cache)
    (slots_m1 : Nat) (stats masterStats goal : Stats) (scroll : Scroll)
    (su : ScrollUse) (cache : Cache) : Option ScrollUse × Cache :=
  if Stats.ltb (Stats.plus stats (Stats.mulScalar masterStats slots_m1)) goal
  then (none, cache)
  else if scroll.p_suc < 1 then
    let r := recur stats cache
    let p_fail : ℚ :=
      if scroll.dark then (1 - scroll.p_suc) / 2 else 1 - scroll.p_suc
    let su1 : ScrollUse :=
      .mk scroll (ScrollUse.p_goal su + p_fail * r.2.1)
        (ScrollUse.exp_cost su + p_fail * r.2.2.1)
        (ScrollUse.outcomes su ++ [ItemState.Exists slots_m1 stats r.1])
    if scroll.dark then
      (some (.mk scroll (ScrollUse.p_goal su1) (ScrollUse.exp_cost su1)
        (ScrollUse.outcomes su1 ++ [ItemState.Boomed])), r.2.2.2)
    else (some su1, r.2.2.2)
  else (some su, cache)

/-- Per-scroll loop body of `dfs_p` (`src/dfs.rs` lines 84-180): initialize a
`ScrollUse` with zero probability and the scroll's nominal cost, run the
success branch when `p_suc > 0` (its admissibility check skips the entire
scroll via `continue`, modelled by answering `none`), then the rest of the
scroll via `scrollStepRest`. -/
def scrollStep
    (recur : Stats → Cache → Option ScrollUse × ℚ × ℚ × Cache)
    (slots_m1 : Nat) (stats masterStats goal : Stats) (scroll : Scroll)
    (cache : Cache) : Option ScrollUse × Cache :=
  if scroll.p_suc > 0 then
    let outcome_suc_stats := Stats.plus stats scroll.stats
    if Stats.ltb
        (Stats.plus outcome_suc_stats (Stats.mulScalar masterStats slots_m1))
        goal
    then (none, cache)
    else
      let r := recur outcome_suc_stats cache
      let su : ScrollUse :=
        .mk scroll (scroll.p_suc * r.2.1) (scroll.cost + scroll.p_suc * r.2.2.1)
          [ItemState.Exists slots_m1 outcome_suc_stats r.1]
      scrollStepRest recur slots_m1 stats masterStats goal scroll su r.2.2.2
  else
    scrollStepRest recur slots_m1 stats masterStats goal scroll
      (.mk scroll 0 scroll.cost []) cache

/-- Candidate-comparison step of `dfs_p` (`src/dfs.rs` lines 170-180): the new
candidate replaces the running best when `p_goal` is strictly greater, or when
`p_goal` is `>=` and `exp_cost` is strictly smaller. -/
def betterGe (su best : ScrollUse) : Bool :=
  decide (ScrollUse.p_goal su > ScrollUse.p_goal best) ||
    (decide (ScrollUse.p_goal su ≥ ScrollUse.p_goal best) &&
      decide (ScrollUse.exp_cost su < ScrollUse.exp_cost best))

/-- Candidate-comparison variant of `src/main.rs` lines 443-453: the new
candidate replaces the running best when `p_goal` is strictly greater, or when
`p_goal` is exactly equal and `exp_cost` is strictly smaller. -/
def betterEq (su best : ScrollUse) : Bool :=
  decide (ScrollUse.p_goal su > ScrollUse.p_goal best) ||
    (decide (ScrollUse.p_goal su = ScrollUse.p_goal best) &&
      decide (ScrollUse.exp_cost su < ScrollUse.exp_cost best))

/-- Iteration of the per-scroll loop of `dfs_p` over the running best child
(`src/dfs.rs` lines 84-181): run `scrollStep`; a pruned scroll leaves the
running best unchanged, otherwise the surviving candidate replaces the
running best under the `betterGe` comparison (or becomes it when there was
none yet). -/
def loopStep (recur : Stats → Cache → Option ScrollUse × ℚ × ℚ × Cache)
    (slots_m1 : Nat) (stats masterStats goal : Stats)
    (acc : Option ScrollUse × Cache) (scroll : Scroll) :
    Option ScrollUse × Cache :=
  match scrollStep recur slots_m1 stats masterStats goal scroll acc.2 with
  | (none, cache2) => (acc.1, cache2)
  | (some su, cache2) =>
    match acc.1 with
    | none => (some su, cache2)
    | some best =>
      if betterGe su best then (some su, cache2) else (some best, cache2)

/-- Evaluation of an existing item (`ItemState::Exists` arm of `dfs_p`,
`src/dfs.rs` lines 62-194), structurally recursive on the slot count: probe
the cache (copying a hit into the child), clear any stale child, handle the
`slots == 0` terminal case, otherwise run the per-scroll loop keeping the best
candidate, and finally insert the chosen child into the cache.  Returns the
resulting child, `p_goal`, `exp_cost` and the updated cache. -/
def dfsExists (scrolls : List Scroll) (masterStats goal : Stats) :
    Nat → Stats → Cache → Option ScrollUse × ℚ × ℚ × Cache
  | 0, stats, cache =>
    match cacheGet cache 0 stats with
    | some su => (some su, ScrollUse.p_goal su, ScrollUse.exp_cost su, cache)
    | none => (none, if Stats.geb stats goal then 1 else 0, 0, cache)
  | n + 1, stats, cache =>
    match cacheGet cache (n + 1) stats with
    | some su => (some su, ScrollUse.p_goal su, ScrollUse.exp_cost su, cache)
    | none =>
      match scrolls.foldl
          (loopStep (fun s c => dfsExists scrolls masterStats goal n s c)
            n stats masterStats goal)
          (none, cache) with
      | (some su, cache2) =>
        (some su, ScrollUse.p_goal su, ScrollUse.exp_cost su,
          cacheInsert cache2 (n + 1) stats su)
      | (none, cache2) => (none, 0, 0, cache2)

/-- The DFS expectation evaluator (`dfs_p` in `src/dfs.rs` lines 53-198):
`Boomed` yields `(0, 0)`; an existing item is evaluated by `dfsExists`, its
incoming child being ignored and trampled.  Returns the state with its child
updated in place, together with `(p_goal, exp_cost)` and the updated cache. -/
def dfs_p (scrolls : List Scroll) (master : MasterScroll) (goal : Stats)
    (state : ItemState) (cache : Cache) : ItemState × ℚ × ℚ × Cache :=
  match state with
  | .Boomed => (.Boomed, 0, 0, cache)
  | .Exists slots stats _child =>
    let r := dfsExists scrolls master.stats goal slots stats cache
    (.Exists slots stats r.1, r.2.1, r.2.2.1, r.2.2.2)

/-- Entry point (`solve_p` in `src/dfs.rs` lines 20-29): build the master
scroll, start from a fresh empty cache, and run `dfs_p`; the caller observes
the mutated state. -/
def solve_p (state : ItemState) (scrolls : List Scroll) (goal : Stats) :
    ItemState :=
  (dfs_p scrolls (Scroll.masterScroll scrolls) goal state []).1

/-- Variant of `scrollStepRest` specified by the spec's pruning-equivalence
property: the same code with the failure-branch master-scroll admissibility
check removed. -/
def scrollStepRestNP
    (recur : Stats → Cache → Option ScrollUse × ℚ × ℚ × Cache)
    (slots_m1 : Nat) (stats goal : Stats) (scroll : Scroll)
    (su : ScrollUse) (cache : Cache) : Option ScrollUse × Cache :=
  if scroll.p_suc < 1 then
    let r := recur stats cache
    let p_fail : ℚ :=
      if scroll.dark then (1 - scroll.p_suc) / 2 else 1 - scroll.p_suc
    let su1 : ScrollUse :=
      .mk scroll (ScrollUse.p_goal su + p_fail * r.2.1)
        (ScrollUse.exp_cost su + p_fail * r.2.2.1)
        (ScrollUse.outcomes su ++ [ItemState.Exists slots_m1 stats r.1])
    if scroll.dark then
      (some (.mk scroll (ScrollUse.p_goal su1) (ScrollUse.exp_cost su1)
        (ScrollUse.outcomes su1 ++ [ItemState.Boomed])), r.2.2.2)
    else (some su1, r.2.2.2)
  else (some su, cache)

/-- Variant of `scrollStep` specified by the spec's pruning-equivalence
property: the same code with the success-branch master-scroll admissibility
check removed. -/
def scrollStepNP
    (recur : Stats → Cache → Option ScrollUse × ℚ × ℚ × Cache)
    (slots_m1 : Nat) (stats goal : Stats) (scroll : Scroll)
    (cache : Cache) : Option ScrollUse × Cache :=
  if scroll.p_suc > 0 then
    let outcome_suc_stats := Stats.plus stats scroll.stats
    let r := recur outcome_suc_stats cache
    let su : ScrollUse :=
      .mk scroll (scroll.p_suc * r.2.1) (scroll.cost + scroll.p_suc * r.2.2.1)
        [ItemState.Exists slots_m1 outcome_suc_stats r.1]
    scrollStepRestNP recur slots_m1 stats goal scroll su r.2.2.2
  else
    scrollStepRestNP recur slots_m1 stats goal scroll
      (.mk scroll 0 scroll.cost []) cache

/-- Variant of `loopStep` specified by the spec's pruning-equivalence
property, iterating `scrollStepNP` instead of `scrollStep`. -/
def loopStepNP (recur : Stats → Cache → Option ScrollUse × ℚ × ℚ × Cache)
    (slots_m1 : Nat) (stats goal : Stats)
    (acc : Option ScrollUse × Cache) (scroll : Scroll) :
    Option ScrollUse × Cache :=
  match scrollStepNP recur slots_m1 stats goal scroll acc.2 with
  | (none, cache2) => (acc.1, cache2)
  | (some su, cache2) =>
    match acc.1 with
    | none => (some su, cache2)
    | some best =>
      if betterGe su best then (some su, cache2) else (some best, cache2)

/-- Variant of `dfsExists` specified by the spec's pruning-equivalence
property: the same evaluator with both master-scroll admissibility checks
removed (and hence no use for the master scroll's stats). -/
def dfsExistsNP (scrolls : List Scroll) (goal : Stats) :
    Nat → Stats → Cache → Option ScrollUse × ℚ × ℚ × Cache
  | 0, stats, cache =>
    match cacheGet cache 0 stats with
    | some su => (some su, ScrollUse.p_goal su, ScrollUse.exp_cost su, cache)
    | none => (none, if Stats.geb stats goal then 1 else 0, 0, cache)
  | n + 1, stats, cache =>
    match cacheGet cache (n + 1) stats with
    | some su => (some su, ScrollUse.p_goal su, ScrollUse.exp_cost su, cache)
    | none =>
      match scrolls.foldl
          (loopStepNP (fun s c => dfsExistsNP scrolls goal n s c) n stats goal)
          (none, cache) with
      | (some su, cache2) =>
        (some su, ScrollUse.p_goal su, ScrollUse.exp_cost su,
          cacheInsert cache2 (n + 1) stats su)
      | (none, cache2) => (none, 0, 0, cache2)

/-- Property of a cache that none of its keys has a slot count of zero; it
holds of the empty cache `solve_p` starts from, and is preserved by the
evaluator because insertions only happen at states with at least one slot. -/
def cacheKeysPos (c : Cache) : Prop := ∀ e ∈ c, e.1.1 ≠ 0

/-- Property of a cache that every entry whose key stats do not meet the goal
caches a child with zero goal probability. -/
def cacheZeroP (goal : Stats) (c : Cache) : Prop :=
  ∀ e ∈ c, Stats.geb e.1.2 goal = false → ScrollUse.p_goal e.2 = 0

/-- Selection of the best candidate of a list by a replacement predicate, as
performed by the per-scroll loop of `dfs_p` on the surviving candidates. -/
def selectBest (pred : ScrollUse → ScrollUse → Bool) (cands : List ScrollUse) :
    Option ScrollUse :=
  cands.foldl
    (fun acc su =>
      match acc with
      | none => some su
      | some best => if pred su best then some su else some best)
    none

/-- Scroll catalog of Scenario B (`toy_of_101_test` in `src/lib.rs`). -/
def scrollsB : List Scroll :=
  [⟨0.1, false, 100000, [5, 3, 0, 1]⟩,
   ⟨0.3, true, 1300000, [5, 3, 0, 1]⟩,
   ⟨0.6, false, 40000, [2, 1, 0, 0]⟩,
   ⟨0.7, true, 45000, [2, 1, 0, 0]⟩,
   ⟨1.0, false, 70000, [1, 0, 0, 0]⟩]

/-- Root state of Scenario B (`toy_of_101_test` in `src/lib.rs`): seven slots
and stats `[96, 3, 3, 0]`. -/
def rootB : ItemState := ItemState.Exists 7 [96, 3, 3, 0] none

/-- Goal of Scenario B (`toy_of_101_test` in `src/lib.rs`). -/
def goalB : Stats := [111, 0, 0, 0]

/-- Helper: the two tie-break predicates coincide, because over a total order
`p >= q && c` differs from `p == q && c` only when `p > q`, where the first
disjunct already fires in both variants. -/
theorem betterGe_eq_betterEq (su best : ScrollUse) :
    betterGe su best = betterEq su best := by
  unfold betterGe betterEq
  rcases lt_trichotomy (ScrollUse.p_goal su) (ScrollUse.p_goal best)
    with h | h | h
  · simp [h.not_lt, not_le.mpr h, h.ne]
  · simp [h]
  · simp [h]

/-- C10: stat-vector arithmetic is unchecked `u16` arithmetic: the
componentwise sum `40000 + 40000` and the evaluator-style bound product
`300 * 254` (slot counts reach `255`, so the scalar reaches `254`) both
exceed `65535`, so the release build wraps them modulo `2^16` instead of
returning the mathematical result — the operations are not total on the full
`u16 × u8` domain. -/
theorem stats_arithmetic_overflows :
    Stats.plus [40000] [40000] = [14464] ∧
    40000 + 40000 = 80000 ∧ 65536 ≤ 80000 ∧
    Stats.plus [40000] [40000] ≠ [80000] ∧
    Stats.mulScalar [300] 254 = [10664] ∧
    300 * 254 = 76200 ∧ 65536 ≤ 76200 ∧
    Stats.mulScalar [300] 254 ≠ [76200] := by
  refine ⟨rfl, rfl, by norm_num, by decide, rfl, rfl, by norm_num, by decide⟩

/-- C8: `solve_p` is idempotent on its observable results: it overwrites the
child but leaves `slots` and `stats` untouched and starts from a fresh empty
cache, so a second run on the mutated root state reproduces the same state,
and in particular the same `(child.p_goal, child.exp_cost)`. -/
theorem solve_p_idempotent :
    ∀ (slots : Nat) (stats : Stats) (child : Option ScrollUse)
      (scrolls : List Scroll) (goal : Stats),
      solve_p (solve_p (ItemState.Exists slots stats child) scrolls goal)
          scrolls goal
        = solve_p (ItemState.Exists slots stats child) scrolls goal ∧
      childPGoal (solve_p (solve_p (ItemState.Exists slots stats child)
          scrolls goal) scrolls goal)
        = childPGoal (solve_p (ItemState.Exists slots stats child) scrolls goal) ∧
      childExpCost (solve_p (solve_p (ItemState.Exists slots stats child)
          scrolls goal) scrolls goal)
        = childExpCost (solve_p (ItemState.Exists slots stats child) scrolls goal) := by
  intro slots stats child scrolls goal
  have h : solve_p (solve_p (ItemState.Exists slots stats child) scrolls goal)
      scrolls goal
      = solve_p (ItemState.Exists slots stats child) scrolls goal := by
    simp [solve_p, dfs_p]
  exact ⟨h, by rw [h], by rw [h]⟩

/-- C7: an empty catalog does not fail: `Scroll::master_scroll` of an empty
list returns the synthetic scroll with probability `1`, not dark, infinite
cost and empty stats, and `solve_p` / `dfs_p` simply run the per-scroll loop
over nothing, leaving the child `None` (returning `p_goal = 0` at any state
with at least one slot) instead of reporting any error. -/
theorem empty_catalog_behavior :
    Scroll.masterScroll [] = ⟨1, false, true, []⟩ ∧
    (∀ (slots : Nat) (stats : Stats) (child : Option ScrollUse) (goal : Stats),
      solve_p (ItemState.Exists slots stats child) [] goal
        = ItemState.Exists slots stats none) ∧
    (∀ (slots : Nat) (stats : Stats) (child : Option ScrollUse) (goal : Stats),
      (dfs_p [] (Scroll.masterScroll []) goal
          (ItemState.Exists (slots + 1) stats child) []).2.1 = 0) := by
  refine ⟨rfl, ?_, ?_⟩
  · intro slots stats child goal
    cases slots with
    | zero => simp [solve_p, dfs_p, dfsExists, cacheGet]
    | succ n => simp [solve_p, dfs_p, dfsExists, cacheGet]
  · intro slots stats child goal
    simp [dfs_p, dfsExists, cacheGet]

/-- C7 counterexample at a concrete input: with an empty catalog,
`master_scroll` returns normally and `solve_p` completes normally, mutating
the root's child to `None` — no *EmptyCatalog* failure is reported. -/
theorem empty_catalog_no_failure :
    Scroll.masterScroll [] = ⟨1, false, true, []⟩ ∧
    solve_p (ItemState.Exists 3 [7] none) [] [9] = ItemState.Exists 3 [7] none := by
  exact ⟨rfl, by simp [solve_p, dfs_p, dfsExists, cacheGet]⟩

/-- C4 counterexample (negation of the claim): there is no pair of candidate
records on which the `>=` tie-break variant of `src/dfs.rs` and the `==`
variant of `src/main.rs` disagree, so no input can make them select different
scrolls. -/
theorem tie_break_variants_never_differ :
    ¬ ∃ su best : ScrollUse, betterGe su best ≠ betterEq su best := by
  intro h
  obtain ⟨su, best, hne⟩ := h
  exact hne (betterGe_eq_betterEq su best)

/-- C4 amended: the two tie-break variants agree on every pair of candidates,
hence the best-candidate selection they induce is identical on every candidate
list. -/
theorem tie_break_variants_agree :
    (∀ su best : ScrollUse, betterGe su best = betterEq su best) ∧
    (∀ cands : List ScrollUse,
      selectBest betterGe cands = selectBest betterEq cands) := by
  refine ⟨betterGe_eq_betterEq, ?_⟩
  intro cands
  unfold selectBest
  congr 1
  funext acc su
  cases acc with
  | none => rfl
  | some best => simp only [betterGe_eq_betterEq]

/-- C2 failing input: on the one-scroll catalog `[(0.5, false, 0, [1])]` with
one slot, stats `[2]` and goal `[3]`, the evaluator with the master-scroll
checks computes `p_goal = 0` (the failure-branch check `continue`s past the
scroll, discarding its already-computed success contribution and leaving the
child unset), while the same evaluator with the checks removed computes
`p_goal = 1/2`. -/
theorem pruning_changes_p_goal_failing_input :
    (dfs_p [⟨1/2, false, 0, [1]⟩] (Scroll.masterScroll [⟨1/2, false, 0, [1]⟩])
        [3] (ItemState.Exists 1 [2] none) []).2.1 = 0 ∧
    (dfsExistsNP [⟨1/2, false, 0, [1]⟩] [3] 1 [2] []).2.1 = 1/2 := by
  constructor
  · with_unfolding_all rfl
  · with_unfolding_all rfl

/-- C5 counterexample: on a catalog containing the dark scroll with
`p_suc = 0`, the `ScrollUse` built for it does contain a `Boomed` outcome
(after the failure outcome): the evaluator gives the guaranteed-failure dark
scroll a boom branch with weight `(1 - 0)/2`. -/
theorem p_suc_zero_dark_boom_outcome_present :
    childOutcomes (solve_p (ItemState.Exists 1 [0] none) [⟨0, true, 5, [0]⟩] [0])
      = some [ItemState.Exists 0 [0] none, ItemState.Boomed] := by
  with_unfolding_all rfl

/-- C6 counterexample: with the single scroll `(p_suc = 0, non-dark)` and
stats `[5]` already meeting the goal `[3]`, the evaluated root (one slot) has
`child.p_goal = 1`, not `0`: a guaranteed-failure catalog still reaches the
goal with certainty when the stats already satisfy it. -/
theorem all_p_suc_zero_goal_met_p_goal_one :
    childPGoal (solve_p (ItemState.Exists 1 [5] none) [⟨0, false, 7, [0]⟩] [3])
      = some 1 ∧ some (1 : ℚ) ≠ some (0 : ℚ) := by
  constructor
  · with_unfolding_all rfl
  · simp

/-- C9 counterexample: on two empty (equal-length) stat vectors,
`partial_cmp` answers `None`, not `Some(Equal)`: the loop's running state
starts as `None` and is returned unchanged when there are no components. -/
theorem partialCmp_nil_nil_none :
    Stats.partialCmp [] [] = none ∧
    Stats.partialCmp [] [] ≠ some Ordering.eq := by
  exact ⟨rfl, by decide⟩

set_option maxRecDepth 100000 in
/-- C1: evaluating `solve_p` on Scenario B of `toy_of_101_test`
(`src/lib.rs`): the chosen scroll is the `(0.3, dark, 1300000, [5,3,0,1])`
scroll and `child.p_goal` is exactly `0.18668660625` as claimed, but
`child.exp_cost` is exactly `2872361.3915625`, not the claimed
`2871256.93375`: the code contradicts its own test on the expected cost. -/
theorem scenarioB_code_result :
    (fun st => (childScroll st, childPGoal st, childExpCost st))
        (solve_p rootB scrollsB goalB)
      = (some ⟨0.3, true, 1300000, [5, 3, 0, 1]⟩,
         some 0.18668660625, some 2872361.3915625) ∧
    (2872361.3915625 : ℚ) ≠ 2871256.93375 := by
  constructor
  · with_unfolding_all rfl
  · norm_num

/-- Helper: `natCmp` answers `lt` exactly on smaller-than. -/
theorem natCmp_lt {a b : Nat} : natCmp a b = Ordering.lt ↔ a < b := by
  unfold natCmp
  split
  · simp_all
  · split <;> simp_all

/-- Helper: `natCmp` answers `eq` exactly on equality. -/
theorem natCmp_eq {a b : Nat} : natCmp a b = Ordering.eq ↔ a = b := by
  unfold natCmp
  split
  · constructor
    · intro h; cases h
    · intro h; omega
  · split <;> simp_all

/-- Helper: `natCmp` answers `gt` exactly on greater-than. -/
theorem natCmp_gt {a b : Nat} : natCmp a b = Ordering.gt ↔ b < a := by
  unfold natCmp
  split
  · constructor
    · intro h; cases h
    · intro h; omega
  · split
    · constructor
      · intro h; cases h
      · intro h; omega
    · constructor
      · intro _; omega
      · intro _; rfl

/-- Helper: one step of the loop from the `Less` running state. -/
theorem pcLoop_step_lt (p : Nat × Nat) (l : List (Nat × Nat)) :
    pcLoop (some Ordering.lt) (p :: l) =
      if natCmp p.1 p.2 = Ordering.gt then none
      else pcLoop (some Ordering.lt) l := rfl

/-- Helper: one step of the loop from the `Greater` running state. -/
theorem pcLoop_step_gt (p : Nat × Nat) (l : List (Nat × Nat)) :
    pcLoop (some Ordering.gt) (p :: l) =
      if natCmp p.1 p.2 = Ordering.lt then none
      else pcLoop (some Ordering.gt) l := rfl

/-- Helper: one step of the loop from the `Equal` running state. -/
theorem pcLoop_step_eq (p : Nat × Nat) (l : List (Nat × Nat)) :
    pcLoop (some Ordering.eq) (p :: l) =
      if natCmp p.1 p.2 ≠ Ordering.eq then pcLoop (some (natCmp p.1 p.2)) l
      else pcLoop (some Ordering.eq) l := rfl

/-- Helper: one step of the loop from the initial state. -/
theorem pcLoop_step_none (p : Nat × Nat) (l : List (Nat × Nat)) :
    pcLoop none (p :: l) = pcLoop (some (natCmp p.1 p.2)) l := rfl

/-- Helper: from the `Less` running state, the loop answers `Less` when every
remaining component is less-or-equal and `None` otherwise. -/
theorem pcLoop_lt (l : List (Nat × Nat)) :
    pcLoop (some Ordering.lt) l =
      if ∀ p ∈ l, p.1 ≤ p.2 then some Ordering.lt else none := by
  induction l with
  | nil => rfl
  | cons p rest ih =>
    rw [pcLoop_step_lt]
    cases hc : natCmp p.1 p.2 with
    | lt =>
      have hp : p.1 ≤ p.2 := le_of_lt (natCmp_lt.mp hc)
      have hiff : (∀ q ∈ rest, q.1 ≤ q.2) ↔ (∀ q ∈ p :: rest, q.1 ≤ q.2) := by
        constructor
        · intro h q hq
          rcases List.mem_cons.mp hq with hq | hq
          · rw [hq]; exact hp
          · exact h q hq
        · intro h q hq
          exact h q (List.mem_cons_of_mem p hq)
      rw [if_neg (by simp), ih]
      exact if_congr hiff rfl rfl
    | eq =>
      have hp : p.1 ≤ p.2 := le_of_eq (natCmp_eq.mp hc)
      have hiff : (∀ q ∈ rest, q.1 ≤ q.2) ↔ (∀ q ∈ p :: rest, q.1 ≤ q.2) := by
        constructor
        · intro h q hq
          rcases List.mem_cons.mp hq with hq | hq
          · rw [hq]; exact hp
          · exact h q hq
        · intro h q hq
          exact h q (List.mem_cons_of_mem p hq)
      rw [if_neg (by simp), ih]
      exact if_congr hiff rfl rfl
    | gt =>
      have hgt := natCmp_gt.mp hc
      rw [if_pos rfl, if_neg]
      intro h
      have := h p (List.mem_cons_self p rest)
      omega

/-- Helper: from the `Greater` running state, the loop answers `Greater` when
every remaining component is greater-or-equal and `None` otherwise. -/
theorem pcLoop_gt (l : List (Nat × Nat)) :
    pcLoop (some Ordering.gt) l =
      if ∀ p ∈ l, p.2 ≤ p.1 then some Ordering.gt else none := by
  induction l with
  | nil => rfl
  | cons p rest ih =>
    rw [pcLoop_step_gt]
    cases hc : natCmp p.1 p.2 with
    | lt =>
      have hlt := natCmp_lt.mp hc
      rw [if_pos rfl, if_neg]
      intro h
      have := h p (List.mem_cons_self p rest)
      omega
    | eq =>
      have hp : p.2 ≤ p.1 := le_of_eq (natCmp_eq.mp hc).symm
      have hiff : (∀ q ∈ rest, q.2 ≤ q.1) ↔ (∀ q ∈ p :: rest, q.2 ≤ q.1) := by
        constructor
        · intro h q hq
          rcases List.mem_cons.mp hq with hq | hq
          · rw [hq]; exact hp
          · exact h q hq
        · intro h q hq
          exact h q (List.mem_cons_of_mem p hq)
      rw [if_neg (by simp), ih]
      exact if_congr hiff rfl rfl
    | gt =>
      have hp : p.2 ≤ p.1 := le_of_lt (natCmp_gt.mp hc)
      have hiff : (∀ q ∈ rest, q.2 ≤ q.1) ↔ (∀ q ∈ p :: rest, q.2 ≤ q.1) := by
        constructor
        · intro h q hq
          rcases List.mem_cons.mp hq with hq | hq
          · rw [hq]; exact hp
          · exact h q hq
        · intro h q hq
          exact h q (List.mem_cons_of_mem p hq)
      rw [if_neg (by simp), ih]
      exact if_congr hiff rfl rfl

/-- Helper: from the `Equal` running state, the loop implements the full
product-order scan of the remaining components. -/
theorem pcLoop_eqs (l : List (Nat × Nat)) :
    pcLoop (some Ordering.eq) l =
      if ∀ p ∈ l, p.1 = p.2 then some Ordering.eq
      else if ∀ p ∈ l, p.1 ≤ p.2 then some Ordering.lt
      else if ∀ p ∈ l, p.2 ≤ p.1 then some Ordering.gt
      else none := by
  induction l with
  | nil => rfl
  | cons p rest ih =>
    rw [pcLoop_step_eq]
    cases hc : natCmp p.1 p.2 with
    | lt =>
      have hlt := natCmp_lt.mp hc
      have h1 : ¬ (∀ q ∈ p :: rest, q.1 = q.2) := by
        intro h
        have := h p (List.mem_cons_self p rest)
        omega
      have h3 : ¬ (∀ q ∈ p :: rest, q.2 ≤ q.1) := by
        intro h
        have := h p (List.mem_cons_self p rest)
        omega
      have hiff : (∀ q ∈ rest, q.1 ≤ q.2) ↔ (∀ q ∈ p :: rest, q.1 ≤ q.2) := by
        constructor
        · intro h q hq
          rcases List.mem_cons.mp hq with hq | hq
          · rw [hq]; omega
          · exact h q hq
        · intro h q hq
          exact h q (List.mem_cons_of_mem p hq)
      rw [if_pos (by simp), pcLoop_lt, if_neg h1]
      exact if_congr hiff rfl (if_neg h3).symm
    | eq =>
      have heq := natCmp_eq.mp hc
      have hiff1 : (∀ q ∈ rest, q.1 = q.2) ↔ (∀ q ∈ p :: rest, q.1 = q.2) := by
        constructor
        · intro h q hq
          rcases List.mem_cons.mp hq with hq | hq
          · rw [hq]; exact heq
          · exact h q hq
        · intro h q hq
          exact h q (List.mem_cons_of_mem p hq)
      have hiff2 : (∀ q ∈ rest, q.1 ≤ q.2) ↔ (∀ q ∈ p :: rest, q.1 ≤ q.2) := by
        constructor
        · intro h q hq
          rcases List.mem_cons.mp hq with hq | hq
          · rw [hq]; omega
          · exact h q hq
        · intro h q hq
          exact h q (List.mem_cons_of_mem p hq)
      have hiff3 : (∀ q ∈ rest, q.2 ≤ q.1) ↔ (∀ q ∈ p :: rest, q.2 ≤ q.1) := by
        constructor
        · intro h q hq
          rcases List.mem_cons.mp hq with hq | hq
          · rw [hq]; omega
          · exact h q hq
        · intro h q hq
          exact h q (List.mem_cons_of_mem p hq)
      rw [if_neg (by simp), ih]
      exact if_congr hiff1 rfl (if_congr hiff2 rfl (if_congr hiff3 rfl rfl))
    | gt =>
      have hgt := natCmp_gt.mp hc
      have h1 : ¬ (∀ q ∈ p :: rest, q.1 = q.2) := by
        intro h
        have := h p (List.mem_cons_self p rest)
        omega
      have h2 : ¬ (∀ q ∈ p :: rest, q.1 ≤ q.2) := by
        intro h
        have := h p (List.mem_cons_self p rest)
        omega
      have hiff : (∀ q ∈ rest, q.2 ≤ q.1) ↔ (∀ q ∈ p :: rest, q.2 ≤ q.1) := by
        constructor
        · intro h q hq
          rcases List.mem_cons.mp hq with hq | hq
          · rw [hq]; omega
          · exact h q hq
        · intro h q hq
          exact h q (List.mem_cons_of_mem p hq)
      rw [if_pos (by simp), pcLoop_gt, if_neg h1, if_neg h2]
      exact if_congr hiff rfl rfl

/-- Helper: with at least one component, starting the loop from the initial
`None` state is the same as starting it from the `Equal` state. -/
theorem pcLoop_none_eq_eqState (p : Nat × Nat) (l : List (Nat × Nat)) :
    pcLoop none (p :: l) = pcLoop (some Ordering.eq) (p :: l) := by
  rw [pcLoop_step_none, pcLoop_step_eq]
  cases hc : natCmp p.1 p.2 <;> simp

/-- C9 amended: on equal-length vectors, `partial_cmp` implements the product
order except on empty vectors: it answers `Some(Equal)` iff the vectors are
nonempty and all components tie, `Some(Less)` (resp. `Some(Greater)`) iff all
componentwise comparisons are less-or-equal (resp. greater-or-equal) with at
least one strict, and `None` iff the vectors are empty or two components
disagree strictly in direction. -/
theorem partialCmp_product_order :
    ∀ s t : Stats, s.length = t.length →
      (Stats.partialCmp s t = some Ordering.eq ↔
        s ≠ [] ∧ ∀ p ∈ s.zip t, p.1 = p.2) ∧
      (Stats.partialCmp s t = some Ordering.lt ↔
        (∀ p ∈ s.zip t, p.1 ≤ p.2) ∧ ∃ p ∈ s.zip t, p.1 < p.2) ∧
      (Stats.partialCmp s t = some Ordering.gt ↔
        (∀ p ∈ s.zip t, p.2 ≤ p.1) ∧ ∃ p ∈ s.zip t, p.2 < p.1) ∧
      (Stats.partialCmp s t = none ↔
        s = [] ∨ ((∃ p ∈ s.zip t, p.1 < p.2) ∧ ∃ p ∈ s.zip t, p.2 < p.1)) := by
  intro s t hlen
  have hmain : Stats.partialCmp s t =
      if s = [] then none
      else if ∀ p ∈ s.zip t, p.1 = p.2 then some Ordering.eq
      else if ∀ p ∈ s.zip t, p.1 ≤ p.2 then some Ordering.lt
      else if ∀ p ∈ s.zip t, p.2 ≤ p.1 then some Ordering.gt
      else none := by
    unfold Stats.partialCmp
    rw [if_neg (by simp [hlen])]
    cases s with
    | nil =>
      simp [pcLoop]
    | cons a s2 =>
      cases t with
      | nil => simp at hlen
      | cons b t2 =>
        rw [List.zip_cons_cons, pcLoop_none_eq_eqState, pcLoop_eqs,
          if_neg (show ¬(a :: s2 = []) from by simp)]
  rcases eq_or_ne s [] with hs | hs
  · subst hs
    have : t = [] := by
      cases t with
      | nil => rfl
      | cons b t2 => simp at hlen
    subst this
    simp [hmain]
  · rw [hmain, if_neg hs]
    by_cases hA : ∀ p ∈ s.zip t, p.1 = p.2
    · have hB : ∀ p ∈ s.zip t, p.1 ≤ p.2 := fun p hp => le_of_eq (hA p hp)
      have hC : ∀ p ∈ s.zip t, p.2 ≤ p.1 := fun p hp => ge_of_eq (hA p hp)
      have hnl : ¬ ∃ p ∈ s.zip t, p.1 < p.2 := by
        intro h
        obtain ⟨p, hp, hlt⟩ := h
        have := hA p hp
        omega
      have hng : ¬ ∃ p ∈ s.zip t, p.2 < p.1 := by
        intro h
        obtain ⟨p, hp, hlt⟩ := h
        have := hA p hp
        omega
      rw [if_pos hA]
      refine ⟨⟨fun _ => ⟨hs, hA⟩, fun _ => rfl⟩, ?_, ?_, ?_⟩
      · constructor
        · intro h; cases h
        · intro h; exact absurd h.2 hnl
      · constructor
        · intro h; cases h
        · intro h; exact absurd h.2 hng
      · constructor
        · intro h; cases h
        · intro h
          rcases h with h | h
          · exact absurd h hs
          · exact absurd h.1 hnl
    · rw [if_neg hA]
      have hex : ∃ p ∈ s.zip t, ¬ p.1 = p.2 := by
        push_neg at hA
        exact hA
      by_cases hB : ∀ p ∈ s.zip t, p.1 ≤ p.2
      · have hexlt : ∃ p ∈ s.zip t, p.1 < p.2 := by
          obtain ⟨p, hp, hne⟩ := hex
          have := hB p hp
          exact ⟨p, hp, by omega⟩
        have hnC : ¬ ∀ p ∈ s.zip t, p.2 ≤ p.1 := by
          intro h
          obtain ⟨p, hp, hlt⟩ := hexlt
          have := h p hp
          omega
        have hng : ¬ ∃ p ∈ s.zip t, p.2 < p.1 := by
          intro h
          obtain ⟨p, hp, hlt⟩ := h
          have := hB p hp
          omega
        rw [if_pos hB]
        refine ⟨?_, ⟨fun _ => ⟨hB, hexlt⟩, fun _ => rfl⟩, ?_, ?_⟩
        · constructor
          · intro h; cases h
          · intro h; exact absurd h.2 hA
        · constructor
          · intro h; cases h
          · intro h; exact absurd h.2 hng
        · constructor
          · intro h; cases h
          · intro h
            rcases h with h | h
            · exact absurd h hs
            · exact absurd h.2 hng
      · have hexgt : ∃ p ∈ s.zip t, p.2 < p.1 := by
          push_neg at hB
          obtain ⟨p, hp, hlt⟩ := hB
          exact ⟨p, hp, hlt⟩
        by_cases hC : ∀ p ∈ s.zip t, p.2 ≤ p.1
        · have hnexlt : ¬ ∃ p ∈ s.zip t, p.1 < p.2 := by
            intro h
            obtain ⟨p, hp, hlt⟩ := h
            have := hC p hp
            omega
          rw [if_neg hB, if_pos hC]
          refine ⟨?_, ?_, ⟨fun _ => ⟨hC, hexgt⟩, fun _ => rfl⟩, ?_⟩
          · constructor
            · intro h; cases h
            · intro h; exact absurd h.2 hA
          · constructor
            · intro h; cases h
            · intro h; exact absurd h.2 hnexlt
          · constructor
            · intro h; cases h
            · intro h
              rcases h with h | h
              · exact absurd h hs
              · exact absurd h.1 hnexlt
        · have hexlt : ∃ p ∈ s.zip t, p.1 < p.2 := by
            push_neg at hC
            obtain ⟨p, hp, hlt⟩ := hC
            exact ⟨p, hp, hlt⟩
          rw [if_neg hB, if_neg hC]
          refine ⟨?_, ?_, ?_, ?_⟩
          · constructor
            · intro h; cases h
            · intro h; exact absurd h.2 hA
          · constructor
            · intro h; cases h
            · intro h; exact absurd h.1 hB
          · constructor
            · intro h; cases h
            · intro h; exact absurd h.1 hC
          · exact ⟨fun _ => Or.inr ⟨hexlt, hexgt⟩, fun _ => rfl⟩

/-- C9 witness: the characterization applied at the concrete pair
`[1, 2]` versus `[1, 3]`, whose comparison is `Some(Less)`. -/
theorem partialCmp_product_order_witness :
    Stats.partialCmp [1, 2] [1, 3] = some Ordering.lt :=
  ((partialCmp_product_order [1, 2] [1, 3] rfl).2.1).mpr (by decide)

/-- C5 amended: for a dark scroll with `p_suc == 0`, the per-scroll body
builds no success outcome, but it does build a boom outcome: either the
failure-branch admissibility check fires and the scroll is skipped entirely
(no `ScrollUse` survives), or the resulting `ScrollUse`'s outcomes are
exactly a failure outcome followed by a `Boomed` outcome, each weighted
`(1 - 0)/2`. -/
theorem scrollStep_p_suc_zero_dark_outcomes :
    ∀ (recur : Stats → Cache → Option ScrollUse × ℚ × ℚ × Cache)
      (slots_m1 : Nat) (stats masterStats goal : Stats) (scroll : Scroll)
      (cache : Cache),
      scroll.p_suc = 0 → scroll.dark = true →
      (Stats.ltb (Stats.plus stats (Stats.mulScalar masterStats slots_m1))
          goal = true ∧
        scrollStep recur slots_m1 stats masterStats goal scroll cache
          = (none, cache)) ∨
      (Stats.ltb (Stats.plus stats (Stats.mulScalar masterStats slots_m1))
          goal = false ∧
        scrollStep recur slots_m1 stats masterStats goal scroll cache
          = (some (ScrollUse.mk scroll
              ((1 - scroll.p_suc) / 2 * (recur stats cache).2.1)
              (scroll.cost + (1 - scroll.p_suc) / 2 * (recur stats cache).2.2.1)
              [ItemState.Exists slots_m1 stats (recur stats cache).1,
                ItemState.Boomed]),
            (recur stats cache).2.2.2)) := by
  intro recur slots_m1 stats masterStats goal scroll cache hp hd
  by_cases hlt : Stats.ltb (Stats.plus stats (Stats.mulScalar masterStats
      slots_m1)) goal = true
  · left
    refine ⟨hlt, ?_⟩
    unfold scrollStep scrollStepRest
    rw [hp]
    simp [hlt]
  · right
    refine ⟨by simpa using hlt, ?_⟩
    unfold scrollStep scrollStepRest
    rw [hp, hd]
    simp [hlt, ScrollUse.p_goal, ScrollUse.exp_cost, ScrollUse.outcomes]

/-- C5 witness: the amended statement applied at a concrete input where the
admissibility check does not fire: the dark `p_suc = 0` scroll gets exactly a
failure outcome and a `Boomed` outcome. -/
theorem scrollStep_p_suc_zero_dark_outcomes_witness :
    ∃ su, scrollStep (fun _ c => (none, 0, 0, c)) 0 [0] [0] [0]
        ⟨0, true, 5, [0]⟩ [] = (some su, ([] : Cache)) ∧
      ScrollUse.outcomes su
        = [ItemState.Exists 0 [0] none, ItemState.Boomed] := by
  rcases scrollStep_p_suc_zero_dark_outcomes (fun _ c => (none, 0, 0, c)) 0
      [0] [0] [0] ⟨0, true, 5, [0]⟩ [] rfl rfl with ⟨hlt, _⟩ | ⟨_, heq⟩
  · exact absurd hlt (by decide)
  · exact ⟨_, heq, rfl⟩

/-- Helper: a hit of the cache probe is an entry of the cache at the probed
key. -/
theorem cacheGet_mem (c : Cache) (slots : Nat) (stats : Stats)
    (su : ScrollUse) (h : cacheGet c slots stats = some su) :
    ((slots, stats), su) ∈ c := by
  unfold cacheGet at h
  cases hf : c.find? (fun e => e.1.1 == slots && e.1.2 == stats) with
  | none => rw [hf] at h; cases h
  | some e =>
    rw [hf] at h
    simp only [Option.map] at h
    have hmem := List.mem_of_find?_eq_some hf
    have hpred := List.find?_some hf
    obtain ⟨h1, h2⟩ := Bool.and_eq_true_iff.mp hpred
    rw [beq_iff_eq] at h1 h2
    obtain ⟨⟨a, b⟩, v⟩ := e
    cases h
    cases h1
    cases h2
    exact hmem

/-- Helper: when no cache key has a zero slot count, the probe at a
zero-slot state misses. -/
theorem cacheGet_zero_eq_none (c : Cache) (stats : Stats)
    (h : cacheKeysPos c) : cacheGet c 0 stats = none := by
  unfold cacheGet
  rw [List.find?_eq_none.mpr]
  · rfl
  · intro e he
    have := h e he
    simp only [Bool.and_eq_true, beq_iff_eq]
    intro hcontra
    exact this hcontra.1

/-- Helper: `scrollStepRest` preserves any cache property that its recursive
evaluator preserves. -/
theorem scrollStepRest_cache_prop (P : Cache → Prop)
    (recur : Stats → Cache → Option ScrollUse × ℚ × ℚ × Cache)
    (slots_m1 : Nat) (stats masterStats goal : Stats) (scroll : Scroll)
    (su : ScrollUse) (cache : Cache)
    (hr : ∀ s c, P c → P (recur s c).2.2.2) (h : P cache) :
    P (scrollStepRest recur slots_m1 stats masterStats goal scroll su
      cache).2 := by
  unfold scrollStepRest
  dsimp only
  split
  · exact h
  · split
    · split
      · exact hr _ _ h
      · exact hr _ _ h
    · exact h

/-- Helper: `scrollStep` preserves any cache property that its recursive
evaluator preserves. -/
theorem scrollStep_cache_prop (P : Cache → Prop)
    (recur : Stats → Cache → Option ScrollUse × ℚ × ℚ × Cache)
    (slots_m1 : Nat) (stats masterStats goal : Stats) (scroll : Scroll)
    (cache : Cache)
    (hr : ∀ s c, P c → P (recur s c).2.2.2) (h : P cache) :
    P (scrollStep recur slots_m1 stats masterStats goal scroll cache).2 := by
  unfold scrollStep
  dsimp only
  split
  · split
    · exact h
    · exact scrollStepRest_cache_prop P recur slots_m1 stats masterStats goal
        scroll _ _ hr (hr _ _ h)
  · exact scrollStepRest_cache_prop P recur slots_m1 stats masterStats goal
      scroll _ _ hr h

/-- Helper: the loop iteration preserves any cache property that its
recursive evaluator preserves. -/
theorem loopStep_cache_prop (P : Cache → Prop)
    (recur : Stats → Cache → Option ScrollUse × ℚ × ℚ × Cache)
    (slots_m1 : Nat) (stats masterStats goal : Stats)
    (acc : Option ScrollUse × Cache) (scroll : Scroll)
    (hr : ∀ s c, P c → P (recur s c).2.2.2) (h : P acc.2) :
    P (loopStep recur slots_m1 stats masterStats goal acc scroll).2 := by
  unfold loopStep
  have hstep := scrollStep_cache_prop P recur slots_m1 stats masterStats goal
    scroll acc.2 hr h
  split
  · next heq => rw [heq] at hstep; exact hstep
  · next su cache2 heq =>
    rw [heq] at hstep
    split
    · exact hstep
    · split
      · exact hstep
      · exact hstep

/-- Helper: the evaluator of existing items only ever inserts cache keys with
a positive slot count, so `cacheKeysPos` is an invariant. -/
theorem dfsExists_keysPos (scrolls : List Scroll) (masterStats goal : Stats) :
    ∀ (slots : Nat) (stats : Stats) (cache : Cache), cacheKeysPos cache →
      cacheKeysPos (dfsExists scrolls masterStats goal slots stats cache).2.2.2 := by
  intro slots
  induction slots with
  | zero =>
    intro stats cache h
    unfold dfsExists
    cases hc : cacheGet cache 0 stats with
    | some su => simpa [hc] using h
    | none => simpa [hc] using h
  | succ n ih =>
    intro stats cache h
    unfold dfsExists
    cases hc : cacheGet cache (n + 1) stats with
    | some su => simpa [hc] using h
    | none =>
      simp only [hc]
      have hfold : cacheKeysPos
          (scrolls.foldl
            (loopStep (fun s c => dfsExists scrolls masterStats goal n s c)
              n stats masterStats goal)
            (none, cache)).2 := by
        refine @List.foldlRecOn _ _
          (fun acc : Option ScrollUse × Cache => cacheKeysPos acc.2)
          scrolls _ (none, cache) h ?_
        intro acc hacc sc _
        exact loopStep_cache_prop cacheKeysPos _ n stats masterStats goal acc
          sc (fun s c hcc => ih s c hcc) hacc
      split
      · next su cache2 heq =>
        rw [heq] at hfold
        intro e he
        rcases List.mem_cons.mp he with he | he
        · rw [he]; simp
        · exact hfold e he
      · next cache2 heq =>
        rw [heq] at hfold
        exact hfold

/-- C3: the terminal cases of `dfs_p`: a `Boomed` state yields `(0, 0)` and
an unchanged cache; an `Exists` state with no slots yields `(1, 0)` when its
stats meet the goal in the product order and `(0, 0)` otherwise, with its
child left `None` — the cache probe that precedes the `slots == 0` test
cannot hit, because `cacheKeysPos` (no cached key has zero slots) holds of
the empty initial cache and is preserved by every `dfs_p` call. -/
theorem dfs_terminal_cases :
    (∀ (scrolls : List Scroll) (master : MasterScroll) (goal : Stats)
      (cache : Cache),
      dfs_p scrolls master goal ItemState.Boomed cache
        = (ItemState.Boomed, 0, 0, cache)) ∧
    (∀ (scrolls : List Scroll) (master : MasterScroll) (goal : Stats)
      (stats : Stats) (child : Option ScrollUse) (cache : Cache),
      cacheKeysPos cache →
      dfs_p scrolls master goal (ItemState.Exists 0 stats child) cache
        = (ItemState.Exists 0 stats none,
          (if Stats.geb stats goal then 1 else 0), 0, cache)) ∧
    (∀ (scrolls : List Scroll) (master : MasterScroll) (goal : Stats)
      (st : ItemState) (cache : Cache),
      cacheKeysPos cache →
      cacheKeysPos (dfs_p scrolls master goal st cache).2.2.2) := by
  refine ⟨fun scrolls master goal cache => rfl, ?_, ?_⟩
  · intro scrolls master goal stats child cache hc
    have hprobe := cacheGet_zero_eq_none cache stats hc
    simp [dfs_p, dfsExists, hprobe]
  · intro scrolls master goal st cache hc
    cases st with
    | Boomed => exact hc
    | Exists slots stats child =>
      simpa [dfs_p] using
        dfsExists_keysPos scrolls master.stats goal slots stats cache hc

/-- C3 witness: the zero-slot case applied at a concrete input with the
empty cache: stats `[5]` meet goal `[3]`, so the call returns `(1, 0)` and
clears the child. -/
theorem dfs_terminal_cases_witness :
    dfs_p [] ⟨1, false, true, []⟩ [3] (ItemState.Exists 0 [5] none) []
      = (ItemState.Exists 0 [5] none, 1, 0, []) := by
  have h := dfs_terminal_cases.2.1 [] ⟨1, false, true, []⟩ [3] [5] none []
    (fun e he => absurd he (List.not_mem_nil e))
  rw [h]
  norm_num [Stats.geb, Stats.partialCmp, pcLoop, natCmp]

/-- Helper: for a scroll with `p_suc = 0` the per-scroll body skips the
success branch, so when the recursive evaluation of the unchanged stats
reports zero goal probability, the surviving candidate (if any) also carries
zero goal probability, and the zero-probability cache property is
preserved. -/
theorem scrollStep_p_suc_zero
    (recur : Stats → Cache → Option ScrollUse × ℚ × ℚ × Cache)
    (slots_m1 : Nat) (stats masterStats goal : Stats) (scroll : Scroll)
    (cache : Cache) (hp : scroll.p_suc = 0)
    (hrecp : (recur stats cache).2.1 = 0)
    (hrecc : cacheZeroP goal (recur stats cache).2.2.2)
    (hcache : cacheZeroP goal cache) :
    (∀ su, (scrollStep recur slots_m1 stats masterStats goal scroll cache).1
        = some su → ScrollUse.p_goal su = 0) ∧
    cacheZeroP goal
      (scrollStep recur slots_m1 stats masterStats goal scroll cache).2 := by
  unfold scrollStep scrollStepRest
  rw [hp, if_neg (by norm_num : ¬ ((0 : ℚ) > 0))]
  dsimp only
  split
  · exact ⟨(fun su h => by simp at h), hcache⟩
  · rw [if_pos (by norm_num : (0 : ℚ) < 1)]
    split
    · constructor
      · intro su h
        cases h
        simp [ScrollUse.p_goal, hrecp]
      · exact hrecc
    · constructor
      · intro su h
        cases h
        simp [ScrollUse.p_goal, hrecp]
      · exact hrecc

/-- Helper: the loop iteration preserves the zero-goal-probability facts for
catalogs of `p_suc = 0` scrolls. -/
theorem loopStep_p_suc_zero
    (recur : Stats → Cache → Option ScrollUse × ℚ × ℚ × Cache)
    (slots_m1 : Nat) (stats masterStats goal : Stats)
    (acc : Option ScrollUse × Cache) (scroll : Scroll)
    (hp : scroll.p_suc = 0)
    (hrecp : (recur stats acc.2).2.1 = 0)
    (hrecc : cacheZeroP goal (recur stats acc.2).2.2.2)
    (hacc1 : ∀ su, acc.1 = some su → ScrollUse.p_goal su = 0)
    (hacc2 : cacheZeroP goal acc.2) :
    (∀ su, (loopStep recur slots_m1 stats masterStats goal acc scroll).1
        = some su → ScrollUse.p_goal su = 0) ∧
    cacheZeroP goal
      (loopStep recur slots_m1 stats masterStats goal acc scroll).2 := by
  have hss := scrollStep_p_suc_zero recur slots_m1 stats masterStats goal
    scroll acc.2 hp hrecp hrecc hacc2
  unfold loopStep
  split
  · next heq => rw [heq] at hss; exact ⟨hacc1, hss.2⟩
  · next su cache2 heq =>
    rw [heq] at hss
    have hsu : ScrollUse.p_goal su = 0 := hss.1 su rfl
    split
    · exact ⟨fun su2 h => by cases h; exact hsu, hss.2⟩
    · next best heq2 =>
      split
      · exact ⟨fun su2 h => by cases h; exact hsu, hss.2⟩
      · exact ⟨fun su2 h => by cases h; exact hacc1 best heq2, hss.2⟩

/-- Helper: when every scroll has `p_suc = 0` and the current stats do not
meet the goal, the evaluator reports zero goal probability, any surviving
child carries zero goal probability, and the zero-probability cache property
is preserved. -/
theorem dfsExists_p_suc_zero (scrolls : List Scroll)
    (masterStats goal : Stats) (hs : ∀ sc ∈ scrolls, sc.p_suc = 0) :
    ∀ (slots : Nat) (stats : Stats) (cache : Cache),
      Stats.geb stats goal = false → cacheZeroP goal cache →
      (dfsExists scrolls masterStats goal slots stats cache).2.1 = 0 ∧
      (∀ su, (dfsExists scrolls masterStats goal slots stats cache).1
          = some su → ScrollUse.p_goal su = 0) ∧
      cacheZeroP goal
        (dfsExists scrolls masterStats goal slots stats cache).2.2.2 := by
  intro slots
  induction slots with
  | zero =>
    intro stats cache hgeb hcache
    unfold dfsExists
    cases hc : cacheGet cache 0 stats with
    | some su =>
      have hmem := cacheGet_mem cache 0 stats su hc
      have hzero := hcache _ hmem hgeb
      simp only [hc]
      exact ⟨hzero, (fun su2 h => by cases h; exact hzero), hcache⟩
    | none =>
      simp only [hc, hgeb]
      exact ⟨by simp, (fun su2 h => by simp at h), hcache⟩
  | succ n ih =>
    intro stats cache hgeb hcache
    unfold dfsExists
    cases hc : cacheGet cache (n + 1) stats with
    | some su =>
      have hmem := cacheGet_mem cache (n + 1) stats su hc
      have hzero := hcache _ hmem hgeb
      simp only [hc]
      exact ⟨hzero, (fun su2 h => by cases h; exact hzero), hcache⟩
    | none =>
      simp only [hc]
      have hfold := @List.foldlRecOn _ _
        (fun acc : Option ScrollUse × Cache =>
          (∀ su, acc.1 = some su → ScrollUse.p_goal su = 0) ∧
          cacheZeroP goal acc.2)
        scrolls
        (loopStep (fun s c => dfsExists scrolls masterStats goal n s c)
          n stats masterStats goal)
        (none, cache)
        ⟨(fun su h => by simp at h), hcache⟩
        (fun acc hacc sc hsc =>
          loopStep_p_suc_zero _ n stats masterStats goal acc sc (hs sc hsc)
            (ih stats acc.2 hgeb hacc.2).1
            (ih stats acc.2 hgeb hacc.2).2.2
            hacc.1 hacc.2)
      split
      · next su cache2 heq =>
        rw [heq] at hfold
        have hsu : ScrollUse.p_goal su = 0 := hfold.1 su rfl
        refine ⟨hsu, (fun su2 h => by cases h; exact hsu), ?_⟩
        intro e he hegeb
        rcases List.mem_cons.mp he with he | he
        · rw [he]; exact hsu
        · exact hfold.2 e he hegeb
      · next cache2 heq =>
        rw [heq] at hfold
        exact ⟨rfl, (fun su2 h => by simp at h), hfold.2⟩

/-- C6 amended: if every scroll of the catalog has `p_suc == 0` and the
starting stats do not already meet the goal, then `dfs_p` computes
`p_goal = 0` at the evaluated state (and its child, when one is set, carries
`p_goal = 0`); the restriction to stats not meeting the goal is forced, since
a state whose stats already satisfy the goal survives every failure and keeps
probability 1 on non-dark branches. -/
theorem all_p_suc_zero_not_met_p_goal_zero :
    ∀ (scrolls : List Scroll) (master : MasterScroll) (goal : Stats)
      (slots : Nat) (stats : Stats) (child : Option ScrollUse)
      (cache : Cache),
      scrolls ≠ [] → (∀ sc ∈ scrolls, sc.p_suc = 0) →
      Stats.geb stats goal = false → cacheZeroP goal cache →
      (dfs_p scrolls master goal (ItemState.Exists slots stats child)
        cache).2.1 = 0 ∧
      (∀ q, childPGoal (dfs_p scrolls master goal
          (ItemState.Exists slots stats child) cache).1 = some q → q = 0) := by
  intro scrolls master goal slots stats child cache _ hs hgeb hcache
  have h := dfsExists_p_suc_zero scrolls master.stats goal hs slots stats
    cache hgeb hcache
  constructor
  · simpa [dfs_p] using h.1
  · intro q hq
    simp only [dfs_p, childPGoal, ItemState.child, Option.map] at hq
    cases hc : (dfsExists scrolls master.stats goal slots stats cache).1 with
    | none => rw [hc] at hq; cases hq
    | some su =>
      rw [hc] at hq
      cases hq
      exact h.2.1 su hc

/-- C6 witness: the amended statement applied at the concrete input with one
dark `p_suc = 0` scroll, stats `[0]` not meeting goal `[2]`, one slot and the
empty cache. -/
theorem all_p_suc_zero_not_met_p_goal_zero_witness :
    (dfs_p [⟨0, true, 3, [1]⟩] ⟨1, false, true, [1]⟩ [2]
      (ItemState.Exists 1 [0] none) []).2.1 = 0 := by
  have h := all_p_suc_zero_not_met_p_goal_zero [⟨0, true, 3, [1]⟩]
    ⟨1, false, true, [1]⟩ [2] 1 [0] none []
    (by simp) (by intro sc hsc; rcases List.mem_singleton.mp hsc with rfl; rfl)
    (by decide) (fun e he => absurd he (List.not_mem_nil e))
  exact h.1
